import Mathlib

set_option autoImplicit false

/-!
Shallow embedding of the Dendron SQLite bootstrap pipeline
(`SqliteDbFactory.createEmptyDB`, `createInitializedDB`, `initSchema`,
`readAllSchema`) and of the autocomplete helpers (`UIAutoCompletableCmds`,
`AutoCompleter.autoCompleteNoteLookup`), together with theorems about them.

External collaborators (`IFileStore.readDir`, `SchemaParser.parse`,
`parseAllNoteFilesForSqlite`, `FuseEngine.doesContainSpecialQueryChars`, the
error factory) are not part of the repository sources; they enter the
embedding as explicit environment parameters, or are modelled from the
specification where a doc comment says so.
-/

namespace Dendron

/-- A vault descriptor: a filesystem path fragment plus an optional display name. -/
structure DVault where
  fsPath : String
  name : Option String := none
deriving DecidableEq, Repr

/-- `VaultUtils.getName`: the vault's display name, falling back to its path fragment. -/
def VaultUtils.getName (vault : DVault) : String :=
  vault.name.getD vault.fsPath

/-- `ERROR_SEVERITY` from common-all (the members this code uses). -/
inductive ERROR_SEVERITY where
  | MINOR
  | FATAL
deriving DecidableEq, Repr

/-- `ERROR_STATUS` from common-all (the members this code uses). -/
inductive ERROR_STATUS where
  | NO_SCHEMA_FOUND
  | INVALID_STATE
deriving DecidableEq, Repr

/-- A `DendronError`: message plus optional status, severity and cause payload
(the payload is modelled by the message of the underlying error). -/
structure DendronError where
  message : String
  status : Option ERROR_STATUS := none
  severity : Option ERROR_SEVERITY := none
  payload : Option String := none
deriving DecidableEq, Repr

/-- `IDendronError`: either a plain `DendronError` or a `DendronCompositeError`
holding an ordered list of sub-errors. -/
inductive IDendronError where
  | base (e : DendronError)
  | composite (errors : List IDendronError)
deriving Repr

/-- All base sub-errors reachable inside an `IDendronError`, in order. -/
def IDendronError.subErrors : IDendronError → List DendronError
  | .base e => [e]
  | .composite es => es.attach.flatMap (fun x => IDendronError.subErrors x.1)
decreasing_by
  have := List.sizeOf_lt_of_mem x.2
  simp only [IDendronError.composite.sizeOf_spec]
  omega

/-- `ResultAsync.combine` from neverthrow: the first error in list order wins,
otherwise the list of all values. -/
def combine {ε α : Type} : List (Except ε α) → Except ε (List α)
  | [] => .ok []
  | r :: rest =>
    match r with
    | .error e => .error e
    | .ok a =>
      match combine rest with
      | .error e => .error e
      | .ok tl => .ok (a :: tl)

/-- `ResultAsync.combineWithAllErrors` from neverthrow: all values when no entry
errored, otherwise the list of all errors. -/
def combineWithAllErrors {ε α : Type} (rs : List (Except ε α)) : Except (List ε) (List α) :=
  let errs := rs.filterMap (fun r => match r with | .error e => some e | .ok _ => none)
  if errs.isEmpty then
    .ok (rs.filterMap (fun r => match r with | .ok a => some a | .error _ => none))
  else
    .error errs

/-! ## `createEmptyDB` -/

/-- The SQL statements `createEmptyDB` issues after opening the connection. -/
inductive SqlStmt where
  | createVaults
  | createNoteProps
  | createLinks
  | createVaultNotes
  | createHierarchy
  | createSchemaNotes
  | createNotePropsFts
  | pragmaForeignKeysOn
deriving DecidableEq, Repr

/-- The database handle; it has no observable structure in this embedding. -/
abbrev Db := Unit

/-- Error channel of the database layer (`Error` / `unknown` in the source). -/
abbrev DbError := String

/-- Environment for `createEmptyDB`: the outcome of opening the store at the
given path and the outcome of each DDL / pragma statement. -/
structure DbEnv where
  openResult : Except DbError Db
  stmtResult : SqlStmt → Except DbError Unit

/-- Phase-1 statements (relation-less tables), in source order. -/
def phase1Stmts : List SqlStmt :=
  [.createVaults, .createNoteProps, .createLinks]

/-- Phase-2 statements (tables with relations, then the foreign-key pragma), in
source order. -/
def phase2Stmts : List SqlStmt :=
  [.createVaultNotes, .createHierarchy, .createSchemaNotes, .createNotePropsFts,
   .pragmaForeignKeysOn]

/-- The phase-2 table creations (phase 2 without the pragma). -/
def phase2TableStmts : List SqlStmt :=
  [.createVaultNotes, .createHierarchy, .createSchemaNotes, .createNotePropsFts]

/-- The seven table-creation statements of the schema. -/
def tableCreateStmts : List SqlStmt := phase1Stmts ++ phase2TableStmts

/-- `SqliteDbFactory.createEmptyDB`: the call's result together with the trace of
statements issued to the connection, in issue order (node-sqlite3 runs the
statements of one connection serially in that order). Each
`ResultAsync.combine` block issues its statements eagerly in array order, so
the pragma is issued right after the four phase-2 CREATE statements; the
phase-2 block runs only after the phase-1 block succeeded (`andThen`). -/
def createEmptyDB (env : DbEnv) : Except DbError Db × List SqlStmt :=
  match env.openResult with
  | .error e => (.error e, [])
  | .ok db =>
    match combine (phase1Stmts.map env.stmtResult) with
    | .error e => (.error e, phase1Stmts)
    | .ok _ =>
      match combine (phase2Stmts.map env.stmtResult) with
      | .error e => (.error e, phase1Stmts ++ phase2Stmts)
      | .ok _ => (.ok db, phase1Stmts ++ phase2Stmts)

/-- Index of the first occurrence of a statement in a trace. -/
def stmtIdx (t : List SqlStmt) (s : SqlStmt) : Nat :=
  t.findIdx (fun x => x == s)

/-! ## `createInitializedDB` -/

/-- A row written into the note tables during ingestion. -/
structure NoteRow where
  fname : String
  vaultPath : String
deriving DecidableEq, Repr

/-- Modelled from the spec: `parseAllNoteFilesForSqlite` (declared in
`engine-server/src/drivers/file`, which is not under the provided sources)
parses each listed entry into rows for the note tables; any returned error is
fatal for the whole vault, and a vault with zero matching files contributes
zero rows and no error. The per-file outcome is supplied by the environment. -/
def parseAllNoteFilesForSqlite (parseFile : String → Except DbError (List NoteRow)) :
    List String → Except DbError (List NoteRow)
  | [] => .ok []
  | f :: rest =>
    match parseFile f with
    | .error e => .error e
    | .ok rows =>
      match parseAllNoteFilesForSqlite parseFile rest with
      | .error e => .error e
      | .ok more => .ok (rows ++ more)

/-- Environment for ingestion: `fileStore.readDir` restricted to the "*.md"
include pattern (failure = the rejected promise caught by
`ResultAsync.fromPromise`), and the per-file parse outcome used by
`parseAllNoteFilesForSqlite`. -/
structure IngestEnv where
  readDir : DVault → Except DbError (List String)
  parseFile : DVault → String → Except DbError (List NoteRow)

/-- One vault's step inside `createInitializedDB`: list the vault's note files,
then parse them (writing their rows). -/
def ingestVault (env : IngestEnv) (vault : DVault) : Except DbError (List NoteRow) :=
  match env.readDir vault with
  | .error e => .error e
  | .ok files => parseAllNoteFilesForSqlite (env.parseFile vault) files

/-- `SqliteDbFactory.createInitializedDB`: create the empty schema, then combine
the per-vault ingestion steps with `ResultAsync.combine` (first error wins),
returning the handle only when everything succeeded. -/
def createInitializedDB (dbEnv : DbEnv) (vaults : List DVault) (env : IngestEnv) :
    Except DbError Db :=
  match (createEmptyDB dbEnv).1 with
  | .error e => .error e
  | .ok db =>
    match combine (vaults.map (ingestVault env)) with
    | .error e => .error e
    | .ok _ => .ok db

/-- The note rows contributed to the store by the vaults whose ingestion step
succeeded. -/
def insertedRows (vaults : List DVault) (env : IngestEnv) : List NoteRow :=
  vaults.flatMap (fun v =>
    match ingestVault env v with
    | .ok rows => rows
    | .error _ => [])

/-! ## Schema discovery (`initSchema` and `readAllSchema`) -/

/-- The root node of a schema module. -/
structure SchemaRoot where
  id : String
deriving DecidableEq, Repr

/-- `SchemaModuleProps` (external type from common-all), modelled with the field
the factory reads (the root schema node carrying the module's root id) plus the
module's file name, which distinguishes modules from different vaults. -/
structure SchemaModuleProps where
  root : SchemaRoot
  fname : String := ""
deriving DecidableEq, Repr

/-- A `SchemaParser.parse` response: schemas (entries may be undefined, hence
`Option`) and errors (`none` models `null`). -/
structure SchemaParseResponse where
  schemas : List (Option SchemaModuleProps)
  errors : Option (List DendronError)
deriving DecidableEq, Repr

/-- `SchemaModuleDict`, modelled as an insertion-ordered association list keyed
by root id. -/
abbrev SchemaModuleDict := List (String × SchemaModuleProps)

/-- JS object property assignment `dict[k] = v`: overwrite in place when the key
exists, otherwise append. -/
def dictSet (d : SchemaModuleDict) (k : String) (v : SchemaModuleProps) : SchemaModuleDict :=
  match d with
  | [] => [(k, v)]
  | (k0, v0) :: rest => if k0 = k then (k, v) :: rest else (k0, v0) :: dictSet rest k v

/-- JS object property read `dict[k]`. -/
def dictGet (d : SchemaModuleDict) (k : String) : Option SchemaModuleProps :=
  (d.find? (fun p => p.1 == k)).map (fun p => p.2)

/-- Environment for the schema pipelines: `fileStore.readDir` restricted to the
"*.schema.yml" include pattern, returning either the listed files or the error
carried by the resolved response (`RespV3`), plus the `SchemaParser.parse`
outcome per vault. -/
structure SchemaEnv where
  readDirSchemas : DVault → Except DendronError (List String)
  parse : DVault → List String → SchemaParseResponse

/-- The per-vault step of `initSchema`: `readDir` (converted to a result by
`ResultUtils.PromiseRespV3ToResultAsync`), then the parser, whose failures
live inside the response value and never in the result channel
(`fromSafePromise`). -/
def initSchemaVault (env : SchemaEnv) (vault : DVault) :
    Except DendronError SchemaParseResponse :=
  match env.readDirSchemas vault with
  | .error e => .error e
  | .ok files => .ok (env.parse vault files)

/-- The combined per-vault results of `initSchema`
(`ResultAsync.combineWithAllErrors`). -/
def initSchemaResponses (vaults : List DVault) (env : SchemaEnv) :
    Except (List DendronError) (List SchemaParseResponse) :=
  combineWithAllErrors (vaults.map (initSchemaVault env))

/-- The schemas the `.map` continuation of `initSchema` flattens out of the
responses (`flatMap` over `schemas`, filtered by `isNotUndefined`); empty when
the combined result is an error, because the continuation does not run then. -/
def initSchemaParsedSchemas (vaults : List DVault) (env : SchemaEnv) :
    List SchemaModuleProps :=
  match initSchemaResponses vaults env with
  | .error _ => []
  | .ok responses => (responses.flatMap (fun r => r.schemas)).filterMap id

/-- The parse errors the `.map` continuation of `initSchema` collects
(`flatMap` over `errors`, filtered by `isNotNull`); empty when the combined
result is an error, because the continuation does not run then. -/
def initSchemaCollectedErrors (vaults : List DVault) (env : SchemaEnv) :
    List DendronError :=
  match initSchemaResponses vaults env with
  | .error _ => []
  | .ok responses => responses.flatMap (fun r => r.errors.getD [])

/-- `SqliteDbFactory.initSchema`. The `.map` continuation that assigns the
collected `errors` and fills `schemaDict` runs only when the combined promise
resolves, which is strictly after the synchronous `if (errors.length > 0)`
check has already executed; that check therefore always sees the initial empty
`errors` array (`errorsAtCheck` below), while the dictionary reference the
function returns is eventually filled with the parsed schemas
(last write per root id wins). -/
def initSchema (vaults : List DVault) (env : SchemaEnv) :
    Except IDendronError SchemaModuleDict :=
  let schemaDict : SchemaModuleDict :=
    (initSchemaParsedSchemas vaults env).foldl (fun d s => dictSet d s.root.id s) []
  let errorsAtCheck : List DendronError := []
  if errorsAtCheck.length > 0 then
    .error (.composite (errorsAtCheck.map .base))
  else
    .ok schemaDict

/-- The MINOR `NO_SCHEMA_FOUND` error `readAllSchema` builds for a vault whose
listing failed or produced no schema files, naming the vault. -/
def noSchemaFoundError (vault : DVault) (payload : Option String) : DendronError :=
  { message := "Unable to get schemas for vault " ++ VaultUtils.getName vault,
    status := some .NO_SCHEMA_FOUND,
    severity := some .MINOR,
    payload := payload }

/-- `RespWithOptError` from common-all: data plus an optional error. -/
structure RespWithOptError (α : Type) where
  data : α
  error : Option IDendronError

/-- One vault's response inside `readAllSchema`: a failed listing or zero files
yields a composite wrapping the MINOR `NO_SCHEMA_FOUND` error and no data
(the sibling vaults keep initializing); otherwise the parsed schemas, with the
parser's errors (when not null) wrapped in a composite. -/
def readAllSchemaVault (env : SchemaEnv) (vault : DVault) :
    RespWithOptError (List (Option SchemaModuleProps)) :=
  match env.readDirSchemas vault with
  | .error e =>
    { error := some (.composite [.base (noSchemaFoundError vault (some e.message))]),
      data := [] }
  | .ok files =>
    if files.length = 0 then
      { error := some (.composite [.base (noSchemaFoundError vault none)]),
        data := [] }
    else
      let resp := env.parse vault files
      { data := resp.schemas,
        error := match resp.errors with
          | none => none
          | some es => some (.composite (es.map .base)) }

/-- `SqliteDbFactory.readAllSchema`: all vaults are processed independently; the
per-vault errors (`flatMap` + `isNotUndefined`) are wrapped into one composite
when non-empty, and the data is flattened and filtered. -/
def readAllSchema (vaults : List DVault) (env : SchemaEnv) :
    RespWithOptError (List SchemaModuleProps) :=
  let schemaResponses := vaults.map (readAllSchemaVault env)
  let errors := (schemaResponses.map (fun r => r.error)).filterMap id
  { error := if errors.length > 0 then some (.composite errors) else none,
    data := (schemaResponses.flatMap (fun r => r.data)).filterMap id }

/-- The base sub-errors of the composite error `readAllSchema` returns. -/
def readAllSchemaSubErrors (vaults : List DVault) (env : SchemaEnv) : List DendronError :=
  match (readAllSchema vaults env).error with
  | none => []
  | some e => e.subErrors

/-! ## `UIAutoCompletableCmds` -/

/-- The `AUTO_COMPLETABLE_COMMAND_ID` enum. -/
inductive AUTO_COMPLETABLE_COMMAND_ID where
  | NOTE_LOOKUP
deriving DecidableEq, Repr

/-- The string value of an enum member (used in the invalid-state message). -/
def AUTO_COMPLETABLE_COMMAND_ID.value : AUTO_COMPLETABLE_COMMAND_ID → String
  | .NOTE_LOOKUP => "NOTE_LOOKUP"

/-- A UI command instance, identified by the identity of the instance. -/
structure AutoCompletableCmd where
  instanceId : Nat
deriving DecidableEq, Repr

/-- The `_UI_AUTOCOMPLETE_COMMANDS` JS `Map`, as an insertion-ordered
association list. -/
abbrev CmdMap := List (AUTO_COMPLETABLE_COMMAND_ID × AutoCompletableCmd)

/-- JS `Map.get`. -/
def CmdMap.get (m : CmdMap) (id : AUTO_COMPLETABLE_COMMAND_ID) :
    Option AutoCompletableCmd :=
  (m.find? (fun p => p.1 == id)).map (fun p => p.2)

/-- JS `Map.set`: update in place when the key exists, otherwise append in
insertion order. -/
def CmdMap.set (m : CmdMap) (id : AUTO_COMPLETABLE_COMMAND_ID)
    (cmd : AutoCompletableCmd) : CmdMap :=
  match m with
  | [] => [(id, cmd)]
  | (k, v) :: rest => if k = id then (id, cmd) :: rest else (k, v) :: CmdMap.set rest id cmd

/-- `UIAutoCompletableCmds.registerIfNotRegistered`. -/
def registerIfNotRegistered (m : CmdMap) (id : AUTO_COMPLETABLE_COMMAND_ID)
    (cmd : AutoCompletableCmd) : CmdMap :=
  if (CmdMap.get m id).isNone then CmdMap.set m id cmd else m

/-- `ErrorFactory.createInvalidStateError` (external factory), modelled as a
`DendronError` carrying the invalid-state status and the thrown message. -/
def createInvalidStateError (message : String) : DendronError :=
  { message := message, status := some .INVALID_STATE }

/-- `UIAutoCompletableCmds.getCmd`; the `throw` is modelled as the error branch. -/
def getCmd (m : CmdMap) (id : AUTO_COMPLETABLE_COMMAND_ID) :
    Except DendronError AutoCompletableCmd :=
  match CmdMap.get m id with
  | none =>
    .error (createInvalidStateError
      ("UI command instance does not exist for '" ++ id.value ++ "'"))
  | some cmd => .ok cmd

/-- A sequence of `registerIfNotRegistered` calls applied to the initially empty
static map. -/
def applyRegistrations
    (calls : List (AUTO_COMPLETABLE_COMMAND_ID × AutoCompletableCmd)) : CmdMap :=
  calls.foldl (fun m pc => registerIfNotRegistered m pc.1 pc.2) []

/-! ## `AutoCompleter` -/

/-- JS `String.prototype.indexOf(needle, start)` over the characters of the
string: the first index at or after `start` where `needle` occurs, if any. -/
def jsIndexOfFrom (hay needle : List Char) (start : Nat) : Option Nat :=
  (List.range (hay.length + 1)).find?
    (fun i => decide (start ≤ i) && needle.isPrefixOf (hay.drop i))

/-- JS `String.prototype.indexOf(needle)`. -/
def jsIndexOf (hay needle : List Char) : Option Nat :=
  jsIndexOfFrom hay needle 0

/-- JS `String.prototype.includes`. -/
def jsIncludes (s t : String) : Bool :=
  (jsIndexOf s.data t.data).isSome

/-- JS `String.prototype.startsWith`. -/
def jsStartsWith (s t : String) : Bool :=
  t.data.isPrefixOf s.data

/-- JS `String.prototype.substring(0, e)`. -/
def jsSubstringTo (s : String) (e : Nat) : String :=
  String.mk (s.data.take e)

/-- JS `String.prototype.length` (all strings involved are plain text, so code
units coincide with characters). -/
def jsLength (s : String) : Nat :=
  s.data.length

/-- `AutoCompleter.matchPrefixTillNextDot`. -/
def matchPrefixTillNextDot (topPick value : String) (minIdx : Nat) : String :=
  let startSearchIdx := max (jsLength value) minIdx
  if startSearchIdx ≥ jsLength topPick then
    topPick
  else
    match h2 : jsIndexOfFrom topPick.data ['.'] startSearchIdx with
    | none => topPick
    | some dotIdx =>
      if dotIdx = jsLength value then
        matchPrefixTillNextDot topPick value (dotIdx + 1)
      else
        jsSubstringTo topPick dotIdx
termination_by jsLength topPick - minIdx
decreasing_by
  have hmem := List.find?_some h2
  simp only [Bool.and_eq_true, decide_eq_true_eq] at hmem
  have hmin : minIdx ≤ startSearchIdx := le_max_right _ _
  simp only [not_le] at *
  omega

/-- `AutoCompleter.matchNoteUpToCurrValue`. -/
def matchNoteUpToCurrValue (topPick currentValue : String) : String :=
  match jsIndexOf topPick.data currentValue.data with
  | none => topPick
  | some idx => jsSubstringTo topPick idx ++ currentValue

/-- `AutoCompleter.autoCompleteNoteLookup`; `special` is the external
`FuseEngine.doesContainSpecialQueryChars` predicate. The `topPickIdx += 1`
mutation of the source shows up as the literal index `0 + 1` in the branch
that performs it. -/
def autoCompleteNoteLookup (special : String → Bool)
    (currentValue activeItemValue : String) (fnames : List String) : String :=
  if fnames.length = 0 then
    currentValue
  else
    let topPickIdx : Nat := 0
    if currentValue != activeItemValue && fnames.contains activeItemValue then
      activeItemValue
    else if special currentValue then
      fnames.getD topPickIdx ""
    else if jsLength currentValue > jsLength (fnames.getD topPickIdx "") then
      currentValue
    else if jsStartsWith (fnames.getD topPickIdx "") currentValue then
      if fnames.getD topPickIdx "" = currentValue then
        if decide (topPickIdx < fnames.length - 1) &&
            jsStartsWith (fnames.getD (topPickIdx + 1) "") currentValue then
          matchPrefixTillNextDot (fnames.getD (topPickIdx + 1) "") currentValue 0
        else
          fnames.getD topPickIdx ""
      else
        matchPrefixTillNextDot (fnames.getD topPickIdx "") currentValue 0
    else if jsIncludes (fnames.getD topPickIdx "") currentValue then
      matchNoteUpToCurrValue (fnames.getD topPickIdx "") currentValue
    else
      fnames.getD topPickIdx ""

/-! ## Concrete fixtures used by the witnesses -/

/-- Fixture: environment in which opening and every statement succeed. -/
def envAllOk : DbEnv :=
  { openResult := .ok (), stmtResult := fun _ => .ok () }

/-- Fixture: environment in which creating the NoteProps table fails. -/
def envNotePropsFails : DbEnv :=
  { openResult := .ok (),
    stmtResult := fun s => if s == .createNoteProps then .error "create failed" else .ok () }

/-- Fixture vault without a display name. -/
def vaultA : DVault := { fsPath := "vaultA" }

/-- Fixture vault with a display name. -/
def vaultB : DVault := { fsPath := "vaultB", name := some "vault-b" }

/-- Fixture: ingestion environment in which every listing is empty. -/
def ingestEnvEmpty : IngestEnv :=
  { readDir := fun _ => .ok [], parseFile := fun _ _ => .ok [] }

/-- Fixture: ingestion environment in which vaultB's listing fails. -/
def ingestEnvListingFails : IngestEnv :=
  { readDir := fun v => if v == vaultB then .error "EACCES" else .ok [],
    parseFile := fun _ _ => .ok [] }

/-- Fixture parse error. -/
def parseErrFoo : DendronError := { message := "bad schema file" }

/-- Fixture schema module with root id "foo", as parsed from vaultA. -/
def schemaFooA : SchemaModuleProps := { root := { id := "foo" }, fname := "vaultA/foo" }

/-- Fixture schema module with root id "foo", as parsed from vaultB. -/
def schemaFooB : SchemaModuleProps := { root := { id := "foo" }, fname := "vaultB/foo" }

/-- Fixture: each vault's single schema file parses with one parse error (and
one schema). -/
def schemaEnvBug : SchemaEnv :=
  { readDirSchemas := fun _ => .ok ["foo.schema.yml"],
    parse := fun _ _ => { schemas := [some schemaFooA], errors := some [parseErrFoo] } }

/-- Fixture: both vaults define a schema with the same root id, no parse errors. -/
def schemaEnvDup : SchemaEnv :=
  { readDirSchemas := fun _ => .ok ["foo.schema.yml"],
    parse := fun v _ =>
      if v == vaultA then { schemas := [some schemaFooA], errors := none }
      else { schemas := [some schemaFooB], errors := none } }

/-- Fixture: vaultA has no schema files, vaultB has one valid schema file. -/
def schemaEnvOneEmpty : SchemaEnv :=
  { readDirSchemas := fun v => if v == vaultA then .ok [] else .ok ["b.schema.yml"],
    parse := fun _ _ => { schemas := [some schemaFooB], errors := none } }

/-! ## Helper lemmas -/

theorem combine_ok_of_all {ε α : Type} (rs : List (Except ε α))
    (h : ∀ r ∈ rs, ∃ a, r = .ok a) : ∃ vs, combine rs = .ok vs := by
  induction rs with
  | nil => exact ⟨[], rfl⟩
  | cons r rest ih =>
    obtain ⟨a, ha⟩ := h r (by simp)
    obtain ⟨vs, hvs⟩ := ih (fun r2 hr2 => h r2 (by simp [hr2]))
    exact ⟨a :: vs, by simp [combine, ha, hvs]⟩

theorem combine_all_of_ok {ε α : Type} (rs : List (Except ε α)) (vs : List α)
    (h : combine rs = .ok vs) : ∀ r ∈ rs, ∃ a, r = .ok a := by
  induction rs generalizing vs with
  | nil => simp
  | cons r rest ih =>
    intro r2 hr2
    cases r with
    | error e => simp [combine] at h
    | ok a =>
      simp only [combine] at h
      rcases hrest : combine rest with e | tl
      · rw [hrest] at h; simp at h
      · rcases List.mem_cons.mp hr2 with h1 | h2
        · exact ⟨a, h1⟩
        · exact ih tl hrest r2 h2

theorem combine_first_error {ε α : Type} (pre : List (Except ε α)) (e : ε)
    (post : List (Except ε α)) (hpre : ∀ r ∈ pre, ∃ a, r = .ok a) :
    combine (pre ++ .error e :: post) = .error e := by
  induction pre with
  | nil => simp [combine]
  | cons r rest ih =>
    obtain ⟨a, ha⟩ := hpre r (by simp)
    have hrec := ih (fun r2 hr2 => hpre r2 (by simp [hr2]))
    simp [combine, ha, hrec]

theorem combine_map_unit_ok_iff {ε α : Type} (f : α → Except ε Unit) (l : List α) :
    (∃ vs, combine (l.map f) = .ok vs) ↔ ∀ s ∈ l, f s = .ok () := by
  constructor
  · rintro ⟨vs, hvs⟩ s hs
    obtain ⟨a, ha⟩ := combine_all_of_ok _ _ hvs (f s) (List.mem_map_of_mem _ hs)
    cases a
    exact ha
  · intro h
    apply combine_ok_of_all
    intro r hr
    obtain ⟨s, hs, rfl⟩ := List.mem_map.mp hr
    exact ⟨(), h s hs⟩

theorem subErrors_composite (es : List IDendronError) :
    (IDendronError.composite es).subErrors = es.flatMap IDendronError.subErrors := by
  rw [IDendronError.subErrors]
  simp [List.flatMap]

theorem dictGet_dictSet (d : SchemaModuleDict) (k k2 : String) (v : SchemaModuleProps) :
    dictGet (dictSet d k v) k2 = if k == k2 then some v else dictGet d k2 := by
  induction d with
  | nil =>
    simp only [dictSet, dictGet, List.find?]
    cases h : (k == k2) <;> simp
  | cons p rest ih =>
    rcases p with ⟨k0, v0⟩
    by_cases h0 : k0 = k
    · subst h0
      simp only [dictSet, if_pos rfl, dictGet, List.find?]
      cases h : (k0 == k2) <;> simp
    · simp only [dictSet, if_neg h0, dictGet, List.find?]
      cases h : (k0 == k2)
      · simpa [dictGet] using ih
      · have : k0 = k2 := by simpa using h
        subst this
        have : (k == k0) = false := by simp [Ne.symm h0]
        simp [this]

theorem dictGet_foldl (l : List SchemaModuleProps) (d0 : SchemaModuleDict) (k : String) :
    dictGet (l.foldl (fun d s => dictSet d s.root.id s) d0) k =
      (l.reverse.find? (fun s => s.root.id == k)).or (dictGet d0 k) := by
  induction l generalizing d0 with
  | nil => simp
  | cons s rest ih =>
    simp only [List.foldl_cons, List.reverse_cons]
    rw [ih, List.find?_append, Option.or_assoc, dictGet_dictSet]
    cases h : (s.root.id == k) <;> simp [List.find?, h]

theorem CmdMap.get_set (m : CmdMap) (k k2 : AUTO_COMPLETABLE_COMMAND_ID)
    (cmd : AutoCompletableCmd) :
    CmdMap.get (CmdMap.set m k cmd) k2 = if k == k2 then some cmd else CmdMap.get m k2 := by
  induction m with
  | nil =>
    simp only [CmdMap.set, CmdMap.get, List.find?]
    cases h : (k == k2) <;> simp
  | cons p rest ih =>
    rcases p with ⟨k0, v0⟩
    by_cases h0 : k0 = k
    · subst h0
      simp only [CmdMap.set, if_pos rfl, CmdMap.get, List.find?]
      cases h : (k0 == k2) <;> simp
    · exact absurd (by cases k0; cases k; rfl) h0

theorem applyRegistrations_get_aux
    (calls : List (AUTO_COMPLETABLE_COMMAND_ID × AutoCompletableCmd))
    (id : AUTO_COMPLETABLE_COMMAND_ID) :
    ∀ m : CmdMap,
      CmdMap.get (calls.foldl (fun m2 pc => registerIfNotRegistered m2 pc.1 pc.2) m) id =
        (CmdMap.get m id).or
          ((calls.find? (fun pc => pc.1 == id)).map (fun pc => pc.2)) := by
  induction calls with
  | nil => intro m; simp
  | cons pc rest ih =>
    intro m
    simp only [List.foldl_cons]
    rw [ih]
    have hpc : pc.1 = id := by cases h1 : pc.1; cases id; rfl
    rw [List.find?_cons_of_pos _ (by simp [hpc])]
    cases hget : CmdMap.get m id with
    | none =>
      have hnone : CmdMap.get m pc.1 = none := by rw [hpc]; exact hget
      have hreg : registerIfNotRegistered m pc.1 pc.2 = CmdMap.set m pc.1 pc.2 := by
        unfold registerIfNotRegistered
        rw [hnone]
        rfl
      rw [hreg, CmdMap.get_set, hget]
      simp [hpc, Option.or]
    | some c =>
      have hsome : CmdMap.get m pc.1 = some c := by rw [hpc]; exact hget
      have hreg : registerIfNotRegistered m pc.1 pc.2 = m := by
        unfold registerIfNotRegistered
        rw [hsome]
        rfl
      rw [hreg, hget]
      simp [Option.or]

/-! ## Claims about `createEmptyDB` -/

/-- C1: in `createEmptyDB`, the `PRAGMA foreign_keys = ON` statement is issued
only after all four phase-2 table creations (VaultNotes, Hierarchy,
SchemaNotes, NotePropsFts) have been issued on the serially executing
connection, and every phase-1 table creation (Vaults, NoteProps, Links) is
issued before any phase-2 table creation. -/
theorem createEmptyDB_foreign_keys_last (env : DbEnv) :
    (SqlStmt.pragmaForeignKeysOn ∈ (createEmptyDB env).2 →
      ∀ s ∈ phase2TableStmts,
        s ∈ (createEmptyDB env).2 ∧
        stmtIdx (createEmptyDB env).2 s <
          stmtIdx (createEmptyDB env).2 SqlStmt.pragmaForeignKeysOn)
  ∧ (∀ s2 ∈ phase2TableStmts, s2 ∈ (createEmptyDB env).2 →
      ∀ s1 ∈ phase1Stmts,
        s1 ∈ (createEmptyDB env).2 ∧
        stmtIdx (createEmptyDB env).2 s1 < stmtIdx (createEmptyDB env).2 s2) := by
  rcases ho : env.openResult with e | db
  · simp only [createEmptyDB, ho]
    decide
  · rcases h1 : combine (phase1Stmts.map env.stmtResult) with e1 | v1
    · simp only [createEmptyDB, ho, h1]
      decide
    · rcases h2 : combine (phase2Stmts.map env.stmtResult) with e2 | v2
      · simp only [createEmptyDB, ho, h1, h2]
        decide
      · simp only [createEmptyDB, ho, h1, h2]
        decide

/-- Witness for C1 at a concrete environment in which everything succeeds. -/
theorem createEmptyDB_foreign_keys_last_witness :
    SqlStmt.createVaultNotes ∈ (createEmptyDB envAllOk).2 ∧
    stmtIdx (createEmptyDB envAllOk).2 SqlStmt.createVaultNotes <
      stmtIdx (createEmptyDB envAllOk).2 SqlStmt.pragmaForeignKeysOn :=
  (createEmptyDB_foreign_keys_last envAllOk).1 (by decide) SqlStmt.createVaultNotes
    (by decide)

/-- `createEmptyDB` succeeds exactly when the open and every issued statement
(the seven creations and the pragma) succeed. -/
theorem createEmptyDB_ok_iff (env : DbEnv) :
    (createEmptyDB env).1 = .ok () ↔
      (env.openResult = .ok () ∧
        ∀ s ∈ phase1Stmts ++ phase2Stmts, env.stmtResult s = .ok ()) := by
  rcases ho : env.openResult with e | db
  · simp [createEmptyDB, ho]
  · cases db
    rcases h1 : combine (phase1Stmts.map env.stmtResult) with e1 | v1
    · simp only [createEmptyDB, ho, h1]
      constructor
      · intro h; simp at h
      · rintro ⟨-, hall⟩
        obtain ⟨vs, hvs⟩ := (combine_map_unit_ok_iff env.stmtResult phase1Stmts).mpr
          (fun s hs => hall s (List.mem_append_left _ hs))
        rw [h1] at hvs
        simp at hvs
    · rcases h2 : combine (phase2Stmts.map env.stmtResult) with e2 | v2
      · simp only [createEmptyDB, ho, h1, h2]
        constructor
        · intro h; simp at h
        · rintro ⟨-, hall⟩
          obtain ⟨vs, hvs⟩ := (combine_map_unit_ok_iff env.stmtResult phase2Stmts).mpr
            (fun s hs => hall s (List.mem_append_right _ hs))
          rw [h2] at hvs
          simp at hvs
      · simp only [createEmptyDB, ho, h1, h2]
        constructor
        · intro _
          refine ⟨trivial, fun s hs => ?_⟩
          rcases List.mem_append.mp hs with hs1 | hs2
          · exact (combine_map_unit_ok_iff env.stmtResult phase1Stmts).mp ⟨v1, h1⟩ s hs1
          · exact (combine_map_unit_ok_iff env.stmtResult phase2Stmts).mp ⟨v2, h2⟩ s hs2
        · exact fun _ => trivial

/-- C6: `createEmptyDB` is all-or-nothing: an open failure propagates as the
call's error, any failing table creation makes the whole call fail, and a
handle is returned only when the open and all seven table creations
succeeded. -/
theorem createEmptyDB_all_or_nothing (env : DbEnv) :
    ((∀ e, env.openResult = .error e → (createEmptyDB env).1 = .error e)
  ∧ (∀ s ∈ tableCreateStmts, (∃ e, env.stmtResult s = .error e) →
        ∃ e2, (createEmptyDB env).1 = .error e2)
  ∧ (∀ db, (createEmptyDB env).1 = .ok db →
        env.openResult = .ok db ∧ ∀ s ∈ tableCreateStmts, env.stmtResult s = .ok ())) := by
  have hsub : ∀ t ∈ tableCreateStmts, t ∈ phase1Stmts ++ phase2Stmts := by decide
  refine ⟨?_, ?_, ?_⟩
  · intro e he
    simp [createEmptyDB, he]
  · rintro s hs ⟨e, he⟩
    rcases hres : (createEmptyDB env).1 with e2 | db
    · exact ⟨e2, rfl⟩
    · cases db
      have hok := (createEmptyDB_ok_iff env).mp hres
      have h2 := hok.2 s (hsub s hs)
      rw [he] at h2
      simp at h2
  · intro db h
    cases db
    have hok := (createEmptyDB_ok_iff env).mp h
    exact ⟨hok.1, fun s hs => hok.2 s (hsub s hs)⟩

/-- Witness for C6 at a concrete environment in which the NoteProps creation
fails. -/
theorem createEmptyDB_all_or_nothing_witness :
    ∃ e2, (createEmptyDB envNotePropsFails).1 = .error e2 :=
  (createEmptyDB_all_or_nothing envNotePropsFails).2.1 SqlStmt.createNoteProps
    (by decide) ⟨"create failed", rfl⟩

/-! ## Claims about `createInitializedDB` -/

/-- C3: `createInitializedDB` composes the per-vault listing and parsing steps
fail-fast: the handle is returned only when the bootstrap and every vault's
step succeeded; any vault whose step fails prevents an ok result; and when the
bootstrap succeeded and the first failing vault fails with `e`, the call
returns exactly `e`. -/
theorem createInitializedDB_fail_fast (dbEnv : DbEnv) (vaults : List DVault)
    (env : IngestEnv) :
    ((∀ db, createInitializedDB dbEnv vaults env = .ok db →
        (createEmptyDB dbEnv).1 = .ok db ∧
        ∀ v ∈ vaults, ∃ rows, ingestVault env v = .ok rows)
  ∧ (∀ v ∈ vaults, (∃ e, ingestVault env v = .error e) →
        ∀ db, createInitializedDB dbEnv vaults env ≠ .ok db)
  ∧ (∀ db pre (v : DVault) post (e : DbError),
        vaults = pre ++ v :: post →
        (createEmptyDB dbEnv).1 = .ok db →
        (∀ u ∈ pre, ∃ rows, ingestVault env u = .ok rows) →
        ingestVault env v = .error e →
        createInitializedDB dbEnv vaults env = .error e)) := by
  have hmain : ∀ db, createInitializedDB dbEnv vaults env = .ok db →
      (createEmptyDB dbEnv).1 = .ok db ∧
      ∀ v ∈ vaults, ∃ rows, ingestVault env v = .ok rows := by
    intro db h
    unfold createInitializedDB at h
    rcases he : (createEmptyDB dbEnv).1 with e | db2
    · rw [he] at h; simp at h
    · rw [he] at h
      rcases hc : combine (vaults.map (ingestVault env)) with e | vs
      · rw [hc] at h; simp at h
      · rw [hc] at h
        simp only [Except.ok.injEq] at h
        cases db; cases db2
        refine ⟨rfl, fun v hv => ?_⟩
        exact combine_all_of_ok _ _ hc (ingestVault env v) (List.mem_map_of_mem _ hv)
  refine ⟨hmain, ?_, ?_⟩
  · rintro v hv ⟨e, he⟩ db hok
    obtain ⟨rows, hrows⟩ := (hmain db hok).2 v hv
    rw [he] at hrows
    simp at hrows
  · intro db pre v post e hva hdb hpre hv
    subst hva
    unfold createInitializedDB
    rw [hdb]
    have hc : combine ((pre ++ v :: post).map (ingestVault env)) = .error e := by
      rw [List.map_append, List.map_cons, hv]
      apply combine_first_error
      intro r hr
      obtain ⟨u, hu, rfl⟩ := List.mem_map.mp hr
      exact hpre u hu
    rw [hc]

/-- Witness for C3: with a successful bootstrap, vaultA listing fine and
vaultB's listing failing, the call returns vaultB's error. -/
theorem createInitializedDB_fail_fast_witness :
    createInitializedDB envAllOk [vaultA, vaultB] ingestEnvListingFails = .error "EACCES" :=
  (createInitializedDB_fail_fast envAllOk [vaultA, vaultB] ingestEnvListingFails).2.2
    () [vaultA] vaultB [] "EACCES" rfl rfl
    (by
      intro u hu
      rw [List.mem_singleton] at hu
      subst hu
      exact ⟨[], rfl⟩)
    rfl

/-- C7: when every vault's listing returns zero matching files (and the
bootstrap succeeded), `createInitializedDB` succeeds and those vaults
contribute zero rows to the store. -/
theorem createInitializedDB_empty_listings (dbEnv : DbEnv) (db : Db)
    (vaults : List DVault) (env : IngestEnv)
    (hdb : (createEmptyDB dbEnv).1 = .ok db)
    (hempty : ∀ v ∈ vaults, env.readDir v = .ok []) :
    createInitializedDB dbEnv vaults env = .ok db ∧ insertedRows vaults env = [] := by
  have hing : ∀ v ∈ vaults, ingestVault env v = .ok [] := by
    intro v hv
    simp [ingestVault, hempty v hv, parseAllNoteFilesForSqlite]
  constructor
  · unfold createInitializedDB
    rw [hdb]
    have hforall : ∀ r ∈ vaults.map (ingestVault env), ∃ a, r = .ok a := by
      intro r hr
      obtain ⟨v, hv, rfl⟩ := List.mem_map.mp hr
      exact ⟨[], hing v hv⟩
    obtain ⟨vs, hvs⟩ := combine_ok_of_all (vaults.map (ingestVault env)) hforall
    rw [hvs]
  · unfold insertedRows
    rw [List.flatMap_eq_nil_iff]
    intro v hv
    rw [hing v hv]

/-- Witness for C7 at a concrete two-vault setup with empty listings. -/
theorem createInitializedDB_empty_listings_witness :
    createInitializedDB envAllOk [vaultA, vaultB] ingestEnvEmpty = .ok () ∧
    insertedRows [vaultA, vaultB] ingestEnvEmpty = [] :=
  createInitializedDB_empty_listings envAllOk () [vaultA, vaultB] ingestEnvEmpty rfl
    (fun _ _ => rfl)

/-! ## Claims about `initSchema` and `readAllSchema` -/

/-- C2 (code bug): `initSchema` never reaches its error branch. The `.map`
continuation that assigns the collected parse errors runs only when the
combined promise resolves, strictly after the synchronous
`if (errors.length > 0)` check, so the check always sees the empty array and
the function returns Ok for every input. At the concrete input below the only
vault's schema file parse produced an error, yet the call returns the
dictionary instead of the composite error described by the claim. -/
theorem initSchema_error_branch_unreachable :
    (∀ (vaults : List DVault) (env : SchemaEnv), ∃ d, initSchema vaults env = .ok d)
  ∧ initSchemaCollectedErrors [vaultA] schemaEnvBug = [parseErrFoo]
  ∧ initSchema [vaultA] schemaEnvBug = .ok [("foo", schemaFooA)] :=
  ⟨fun _ _ => ⟨_, rfl⟩, rfl, rfl⟩

/-- C5: the schemas parsed by `initSchema` are merged into one dictionary keyed
by the schema root id, and a schema parsed later overwrites an earlier one
with the same root id: the dictionary lookup at any key equals the last
parsed schema carrying that root id. -/
theorem initSchema_merge_last_write_wins (vaults : List DVault) (env : SchemaEnv)
    (d : SchemaModuleDict) (h : initSchema vaults env = .ok d) (k : String) :
    dictGet d k =
      (initSchemaParsedSchemas vaults env).reverse.find? (fun s => s.root.id == k) := by
  have h0 : initSchema vaults env =
      .ok ((initSchemaParsedSchemas vaults env).foldl
        (fun d2 s => dictSet d2 s.root.id s) []) := rfl
  rw [h0] at h
  have hd := Except.ok.inj h
  rw [← hd, dictGet_foldl]
  simp [dictGet]

/-- Witness for C5: with both vaults defining root id "foo", the dictionary
holds vaultB's module, the one parsed later. -/
theorem initSchema_merge_last_write_wins_witness :
    dictGet [("foo", schemaFooB)] "foo" =
      (initSchemaParsedSchemas [vaultA, vaultB] schemaEnvDup).reverse.find?
        (fun s => s.root.id == "foo") :=
  initSchema_merge_last_write_wins [vaultA, vaultB] schemaEnvDup
    [("foo", schemaFooB)] rfl "foo"

/-- The error field of `readAllSchema`, unfolded. -/
theorem readAllSchema_error_def (vaults : List DVault) (env : SchemaEnv) :
    (readAllSchema vaults env).error =
      (if (((vaults.map (readAllSchemaVault env)).map (fun r => r.error)).filterMap id).length > 0
        then some (.composite
          (((vaults.map (readAllSchemaVault env)).map (fun r => r.error)).filterMap id))
        else none) := rfl

/-- The data field of `readAllSchema`, unfolded. -/
theorem readAllSchema_data_def (vaults : List DVault) (env : SchemaEnv) :
    (readAllSchema vaults env).data =
      ((vaults.map (readAllSchemaVault env)).flatMap (fun r => r.data)).filterMap id := rfl

/-- C4: in `readAllSchema`, a vault whose listing returned zero schema files
contributes a MINOR-severity `NO_SCHEMA_FOUND` sub-error naming that vault,
and the schemas parsed from every other (non-empty) vault are still present
in the returned data. -/
theorem readAllSchema_no_schema_found (vaults : List DVault) (env : SchemaEnv)
    (v : DVault) (hv : v ∈ vaults) (hzero : env.readDirSchemas v = .ok []) :
    ((noSchemaFoundError v none ∈ readAllSchemaSubErrors vaults env ∧
      (noSchemaFoundError v none).severity = some ERROR_SEVERITY.MINOR ∧
      (noSchemaFoundError v none).status = some ERROR_STATUS.NO_SCHEMA_FOUND ∧
      (noSchemaFoundError v none).message =
        "Unable to get schemas for vault " ++ VaultUtils.getName v)
  ∧ (∀ w ∈ vaults, ∀ files, env.readDirSchemas w = .ok files → files.length ≠ 0 →
      ∀ s : SchemaModuleProps, some s ∈ (env.parse w files).schemas →
        s ∈ (readAllSchema vaults env).data)) := by
  constructor
  · refine ⟨?_, rfl, rfl, rfl⟩
    have hrv : (readAllSchemaVault env v).error =
        some (.composite [.base (noSchemaFoundError v none)]) := by
      simp [readAllSchemaVault, hzero]
    have hmem : IDendronError.composite [.base (noSchemaFoundError v none)] ∈
        ((vaults.map (readAllSchemaVault env)).map (fun r => r.error)).filterMap id := by
      apply List.mem_filterMap.mpr
      exact ⟨some (.composite [.base (noSchemaFoundError v none)]),
        List.mem_map.mpr ⟨readAllSchemaVault env v, List.mem_map_of_mem _ hv, hrv⟩, rfl⟩
    have hpos :
        (((vaults.map (readAllSchemaVault env)).map (fun r => r.error)).filterMap id).length
          > 0 :=
      List.length_pos.mpr (List.ne_nil_of_mem hmem)
    have herr2 : (readAllSchema vaults env).error =
        some (.composite
          (((vaults.map (readAllSchemaVault env)).map (fun r => r.error)).filterMap id)) := by
      rw [readAllSchema_error_def, if_pos hpos]
    have hsub : readAllSchemaSubErrors vaults env =
        (IDendronError.composite
          (((vaults.map (readAllSchemaVault env)).map (fun r => r.error)).filterMap id)).subErrors := by
      unfold readAllSchemaSubErrors
      rw [herr2]
    rw [hsub, subErrors_composite]
    apply List.mem_flatMap.mpr
    refine ⟨.composite [.base (noSchemaFoundError v none)], hmem, ?_⟩
    simp [subErrors_composite, IDendronError.subErrors]
  · intro w hw files hfiles hlen s hs
    have hdata : (readAllSchemaVault env w).data = (env.parse w files).schemas := by
      simp [readAllSchemaVault, hfiles, hlen]
    rw [readAllSchema_data_def]
    apply List.mem_filterMap.mpr
    refine ⟨some s, ?_, rfl⟩
    apply List.mem_flatMap.mpr
    exact ⟨readAllSchemaVault env w, List.mem_map_of_mem _ hw, by rw [hdata]; exact hs⟩

/-- Witness for C4: vaultA has no schema files, vaultB's parsed module is still
returned next to vaultA's MINOR sub-error. -/
theorem readAllSchema_no_schema_found_witness :
    noSchemaFoundError vaultA none ∈ readAllSchemaSubErrors [vaultA, vaultB] schemaEnvOneEmpty ∧
    schemaFooB ∈ (readAllSchema [vaultA, vaultB] schemaEnvOneEmpty).data :=
  ⟨((readAllSchema_no_schema_found [vaultA, vaultB] schemaEnvOneEmpty vaultA
      (by decide) rfl).1).1,
    (readAllSchema_no_schema_found [vaultA, vaultB] schemaEnvOneEmpty vaultA
      (by decide) rfl).2 vaultB (by decide) ["b.schema.yml"] rfl (by decide)
      schemaFooB (by decide)⟩

/-! ## Claims about `UIAutoCompletableCmds` and `AutoCompleter` -/

/-- C8: the registry is first-write-wins: after any sequence of
`registerIfNotRegistered` calls on the initially empty map, `getCmd` returns
the command bound by the first call that used the id, and throws the
invalid-state error when no call ever used the id. -/
theorem uiAutoCompletableCmds_first_write_wins
    (calls : List (AUTO_COMPLETABLE_COMMAND_ID × AutoCompletableCmd))
    (id : AUTO_COMPLETABLE_COMMAND_ID) :
    ((∀ pc : AUTO_COMPLETABLE_COMMAND_ID × AutoCompletableCmd,
        calls.find? (fun q => q.1 == id) = some pc →
        getCmd (applyRegistrations calls) id = .ok pc.2)
  ∧ (calls.find? (fun q => q.1 == id) = none →
        getCmd (applyRegistrations calls) id =
          .error (createInvalidStateError
            ("UI command instance does not exist for '" ++ id.value ++ "'")))) := by
  have hget : CmdMap.get (applyRegistrations calls) id =
      (calls.find? (fun q => q.1 == id)).map (fun pc => pc.2) := by
    unfold applyRegistrations
    rw [applyRegistrations_get_aux]
    simp [CmdMap.get, Option.or]
  constructor
  · intro pc hpc
    unfold getCmd
    rw [hget, hpc]
    rfl
  · intro hnone
    unfold getCmd
    rw [hget, hnone]
    rfl

/-- Witness for C8: after registering instance 1 and then instance 2 under the
same id, `getCmd` still returns instance 1. -/
theorem uiAutoCompletableCmds_first_write_wins_witness :
    getCmd (applyRegistrations
      [(.NOTE_LOOKUP, { instanceId := 1 }), (.NOTE_LOOKUP, { instanceId := 2 })])
      .NOTE_LOOKUP = .ok { instanceId := 1 } :=
  (uiAutoCompletableCmds_first_write_wins
    [(.NOTE_LOOKUP, { instanceId := 1 }), (.NOTE_LOOKUP, { instanceId := 2 })]
    .NOTE_LOOKUP).1 (.NOTE_LOOKUP, { instanceId := 1 }) rfl

/-- C9: with an empty fnames list, `autoCompleteNoteLookup` returns the
currently entered value unchanged, for every special-character predicate,
current value and active item value. -/
theorem autoCompleteNoteLookup_empty_fnames (special : String → Bool)
    (currentValue activeItemValue : String) :
    autoCompleteNoteLookup special currentValue activeItemValue [] = currentValue := rfl

/-- C10: with a non-empty fnames list, when the current value differs from the
active item value and the active item value occurs in fnames,
`autoCompleteNoteLookup` returns the active item value. -/
theorem autoCompleteNoteLookup_returns_active_item (special : String → Bool)
    (currentValue activeItemValue : String) (fnames : List String)
    (hne : fnames ≠ []) (hcur : currentValue ≠ activeItemValue)
    (hmem : activeItemValue ∈ fnames) :
    autoCompleteNoteLookup special currentValue activeItemValue fnames
      = activeItemValue := by
  have hlen : ¬ fnames.length = 0 := by simp [hne]
  simp [autoCompleteNoteLookup, hlen, hcur, hmem]

/-- Witness for C10 at a concrete lookup state. -/
theorem autoCompleteNoteLookup_returns_active_item_witness :
    autoCompleteNoteLookup (fun _ => false) "a" "b" ["b", "c"] = "b" :=
  autoCompleteNoteLookup_returns_active_item (fun _ => false) "a" "b" ["b", "c"]
    (by decide) (by decide) (by decide)

end Dendron
